import Mathlib

/- Shallow embedding of the VoyagerSD service-discovery system (kolkov/voyager).
   The registry server (package server), the cache refresher (server/cache.go),
   and the client-side load balancers and connection pool (package client) are
   translated into pure Lean functions.  Go maps are modelled as association
   lists whose insert replaces in place; time is an explicit natural-number
   parameter; etcd calls are abstracted by boolean outcome parameters. -/

namespace Voyager

/-- Wire message Registration: one running service instance. -/
structure Registration where
  serviceName : String
  instanceId : String
  address : String
  port : Nat
  metadata : List (String × String)
deriving DecidableEq, Repr

/-- Wire message InstanceID. -/
structure InstanceID where
  serviceName : String
  instanceId : String
deriving DecidableEq, Repr

/-- Wire message ServiceQuery. -/
structure ServiceQuery where
  serviceName : String
  healthyOnly : Bool
deriving DecidableEq, Repr

/-- Wire message HealthRequest. -/
structure HealthRequest where
  serviceName : String
  instanceId : String
deriving DecidableEq, Repr

/-- Wire message Response. -/
structure Response where
  success : Bool
  error : String
deriving DecidableEq, Repr

/-- Health statuses of the wire protocol. -/
inductive HealthStatus where
  | unknown
  | healthy
  | unhealthy
deriving DecidableEq, Repr

/-- gRPC status codes used by the server. -/
inductive GrpcCode where
  | invalidArgument
  | internal
  | unauthenticated
  | permissionDenied
deriving DecidableEq, Repr

/-- instanceInfo of in-memory mode: a registration plus its lastSeen time. -/
structure InstanceInfo where
  registration : Registration
  lastSeen : Nat
deriving DecidableEq, Repr

/-- Lookup in an association map keyed by strings (a Go map read).  Keys are
unique in every map a Go program builds, so the first match is the match. -/
def lookupS {α : Type} : List (String × α) → String → Option α
  | [], _ => none
  | p :: rest, k => if p.1 == k then some p.2 else lookupS rest k

/-- Go map write: replace the entry in place when the key is present,
append it otherwise. -/
def insertS {α : Type} : List (String × α) → String → α → List (String × α)
  | [], k, v => [(k, v)]
  | p :: rest, k, v =>
    if p.1 == k then (k, v) :: rest else p :: insertS rest k v

/-- Go map delete. -/
def eraseS {α : Type} (m : List (String × α)) (k : String) : List (String × α) :=
  m.filter (fun p => p.1 != k)

/-- Two-level lookup serviceName → instanceId → value. -/
def lookup2 {α : Type} (m : List (String × List (String × α)))
    (sn id : String) : Option α :=
  match lookupS m sn with
  | some inner => lookupS inner id
  | none => none

/-- Go idiom shared by Register, HealthCheck and the cache loops: create the
inner map when missing, then write the instance entry. -/
def addInstance {α : Type} (m : List (String × List (String × α)))
    (sn id : String) (v : α) : List (String × List (String × α)) :=
  insertS m sn (insertS ((lookupS m sn).getD []) id v)

/-- Go idiom of Deregister and the janitor: delete the instance entry, then
delete the service key when its inner map became empty. -/
def removeInstance {α : Type} (m : List (String × List (String × α)))
    (sn id : String) : List (String × List (String × α)) :=
  match lookupS m sn with
  | some inner =>
    let inner1 := eraseS inner id
    if inner1.isEmpty then eraseS m sn else insertS m sn inner1
  | none => m

/-- State of the registry server (Server struct, the lock and etcd handle
abstracted away). -/
structure ServerState where
  services : List (String × List (String × Registration))
  inMemoryInstances : List (String × List (String × InstanceInfo))
  inMemory : Bool
  cacheTTL : Nat
  authToken : String
deriving DecidableEq, Repr

/-- Fresh server state as built by NewServer. -/
def initialServer (cacheTTL : Nat) (authToken : String) (inMemory : Bool) :
    ServerState :=
  { services := []
    inMemoryInstances := []
    inMemory := inMemory
    cacheTTL := cacheTTL
    authToken := authToken }

/-- Server.Register.  The etcd Marshal/Grant/Put outcomes are the three
boolean parameters (true = success); they are unused in in-memory mode. -/
def Register (s : ServerState) (now : Nat) (req : Registration)
    (marshalOk grantOk putOk : Bool) :
    Except GrpcCode Response × ServerState :=
  if req.serviceName = "" ∨ req.instanceId = "" ∨ req.address = "" ∨
      req.port = 0 then
    (Except.error GrpcCode.invalidArgument, s)
  else if s.inMemory then
    let m1 := addInstance s.inMemoryInstances req.serviceName req.instanceId
      ⟨req, now⟩
    (Except.ok ⟨true, ""⟩, { s with inMemoryInstances := m1 })
  else if marshalOk = false then (Except.error GrpcCode.internal, s)
  else if grantOk = false then (Except.error GrpcCode.internal, s)
  else if putOk = false then (Except.error GrpcCode.internal, s)
  else
    let m1 := addInstance s.services req.serviceName req.instanceId req
    (Except.ok ⟨true, ""⟩, { s with services := m1 })

/-- Server.Discover: list the stored registrations of the queried service. -/
def Discover (s : ServerState) (q : ServiceQuery) : List Registration :=
  if s.inMemory then
    match lookupS s.inMemoryInstances q.serviceName with
    | some inner => inner.map (fun p => p.2.registration)
    | none => []
  else
    match lookupS s.services q.serviceName with
    | some inner => inner.map (fun p => p.2)
    | none => []

/-- Server.HealthCheck.  In store-backed mode a failed Put is only logged:
the handler still answers healthy. -/
def HealthCheck (s : ServerState) (now : Nat) (req : HealthRequest)
    (marshalOk grantOk putOk : Bool) : HealthStatus × ServerState :=
  if s.inMemory then
    match lookupS s.inMemoryInstances req.serviceName with
    | some inner =>
      match lookupS inner req.instanceId with
      | some info =>
        let inner1 := insertS inner req.instanceId { info with lastSeen := now }
        let m1 := insertS s.inMemoryInstances req.serviceName inner1
        (HealthStatus.healthy, { s with inMemoryInstances := m1 })
      | none => (HealthStatus.unhealthy, s)
    | none => (HealthStatus.unhealthy, s)
  else
    match lookupS s.services req.serviceName with
    | some inner =>
      match lookupS inner req.instanceId with
      | some _ =>
        if marshalOk = false then (HealthStatus.unhealthy, s)
        else if grantOk = false then (HealthStatus.unhealthy, s)
        else (HealthStatus.healthy, s)
      | none => (HealthStatus.unhealthy, s)
    | none => (HealthStatus.unhealthy, s)

/-- Server.Deregister.  deleteOk is the etcd Delete outcome (unused in
in-memory mode). -/
def Deregister (s : ServerState) (req : InstanceID) (deleteOk : Bool) :
    Except GrpcCode Response × ServerState :=
  if s.inMemory then
    let m1 := removeInstance s.inMemoryInstances req.serviceName req.instanceId
    (Except.ok ⟨true, ""⟩, { s with inMemoryInstances := m1 })
  else if deleteOk = false then (Except.error GrpcCode.internal, s)
  else
    let m1 := removeInstance s.services req.serviceName req.instanceId
    (Except.ok ⟨true, ""⟩, { s with services := m1 })

/-- Server.cleanupExpiredInstances: drop instances whose age exceeds the
TTL, then drop services left without instances. -/
def cleanupExpiredInstances (s : ServerState) (now : Nat) : ServerState :=
  { s with inMemoryInstances :=
      s.inMemoryInstances.filterMap (fun p =>
        let inner := p.2.filter (fun q => decide (now - q.2.lastSeen ≤ s.cacheTTL))
        if inner.isEmpty then none else some (p.1, inner)) }

/-- Fold one fetched store record into a service map, exactly as the loops
of refreshCache and loadInitialData do. -/
def addRegToCache (m : List (String × List (String × Registration)))
    (reg : Registration) : List (String × List (String × Registration)) :=
  addInstance m reg.serviceName reg.instanceId reg

/-- Body of the refreshCache loop over the fetched key/values: a record is
some parsed registration or none when Unmarshal fails (then it is skipped). -/
def buildCache (kvs : List (Option Registration)) :
    List (String × List (String × Registration)) :=
  kvs.foldl (fun acc kv =>
    match kv with
    | some reg => addRegToCache acc reg
    | none => acc) []

/-- Same fold over parsed registrations only. -/
def buildCacheRegs (regs : List Registration) :
    List (String × List (String × Registration)) :=
  regs.foldl addRegToCache []

/-- Counters touched by refreshCache. -/
structure RefreshMetrics where
  refreshes : Nat
  refreshErrors : Nat
deriving DecidableEq, Repr

/-- Outcome of the etcd Get in refreshCache. -/
inductive FetchResult where
  | ok (kvs : List (Option Registration))
  | canceled
  | failed
deriving DecidableEq, Repr

/-- Server.refreshCache: count the attempt, then either bail out (canceled),
count the error (failed), or rebuild the service map from scratch. -/
def refreshCache (s : ServerState) (m : RefreshMetrics) (fetch : FetchResult) :
    ServerState × RefreshMetrics :=
  let m1 := { m with refreshes := m.refreshes + 1 }
  match fetch with
  | FetchResult.canceled => (s, m1)
  | FetchResult.failed => (s, { m1 with refreshErrors := m1.refreshErrors + 1 })
  | FetchResult.ok kvs => ({ s with services := buildCache kvs }, m1)

/-- Server.loadInitialData: fold the fetched records into the store view. -/
def loadInitialData (s : ServerState) (kvs : List (Option Registration)) :
    ServerState :=
  if s.inMemory then s
  else
    { s with services :=
        kvs.foldl (fun acc kv =>
          match kv with
          | some reg => addRegToCache acc reg
          | none => acc) s.services }

/-- Read a metadata key the way grpc metadata.MD.Get does. -/
def mdGet (md : List (String × List String)) (k : String) : List String :=
  (lookupS md k).getD []

/-- Server.AuthInterceptor.  The incoming context carries metadata
(some md) or none; the handler result stands for handler(ctx, req). -/
def AuthInterceptor {α : Type} (authToken : String)
    (md : Option (List (String × List String)))
    (handler : Except GrpcCode α) : Except GrpcCode α :=
  if authToken ≠ "" then
    match md with
    | none => Except.error GrpcCode.unauthenticated
    | some m =>
      match mdGet m "authorization" with
      | [] => Except.error GrpcCode.permissionDenied
      | t :: _ =>
        if t ≠ authToken then Except.error GrpcCode.permissionDenied
        else handler
  else handler

/-- roundRobinBalancer.Select: per-service cursor, index modulo length,
cursor stored back modulo length. -/
def rrSelect (b : List (String × Nat)) (svc : String)
    (inst : List Registration) : Option Registration × List (String × Nat) :=
  if inst.length = 0 then (none, b)
  else
    let idx := (lookupS b svc).getD 0
    (inst[idx % inst.length]?, insertS b svc ((idx + 1) % inst.length))

/-- Result of the k-th Select call (0-based) over a fixed instance list. -/
def rrIter (b : List (String × Nat)) (svc : String)
    (inst : List Registration) : Nat → Option Registration
  | 0 => (rrSelect b svc inst).1
  | k + 1 => rrIter (rrSelect b svc inst).2 svc inst k

/-- pooledConnection: the transport connection is abstracted to an id. -/
structure PooledConn where
  connId : Nat
  refCount : Int
deriving DecidableEq, Repr

/-- ConnectionPool state; nextId models dialing a fresh connection. -/
structure PoolState where
  conns : List (String × PooledConn)
  nextId : Nat
deriving DecidableEq, Repr

/-- ConnectionPool.Get, sequentially: a hit bumps the refcount; a miss
dials (outcome dialOk) and stores a fresh entry with refcount 1; a failed
dial propagates the error and stores nothing. -/
def poolGet (p : PoolState) (address : String) (dialOk : Bool) :
    Except Unit (Nat × PoolState) :=
  match lookupS p.conns address with
  | some pc =>
    Except.ok (pc.connId,
      { p with conns :=
          insertS p.conns address { pc with refCount := pc.refCount + 1 } })
  | none =>
    if dialOk then
      Except.ok (p.nextId,
        { conns := insertS p.conns address ⟨p.nextId, 1⟩,
          nextId := p.nextId + 1 })
    else Except.error ()

/-- ConnectionPool.Release: decrement the refcount when present. -/
def poolRelease (p : PoolState) (address : String) : PoolState :=
  match lookupS p.conns address with
  | some pc =>
    { p with conns :=
        insertS p.conns address { pc with refCount := pc.refCount - 1 } }
  | none => p

/-- ConnectionPool.ConnectionCount. -/
def poolConnectionCount (p : PoolState) (address : String) : Int :=
  match lookupS p.conns address with
  | some pc => pc.refCount
  | none => 0

/-- One server-visible operation, for the reachability relation. -/
inductive ServerOp where
  | register (now : Nat) (req : Registration) (marshalOk grantOk putOk : Bool)
  | deregister (req : InstanceID) (deleteOk : Bool)
  | healthCheck (now : Nat) (req : HealthRequest)
      (marshalOk grantOk putOk : Bool)
  | cleanup (now : Nat)
  | refresh (fetch : FetchResult)
  | load (kvs : List (Option Registration))

/-- State transition of one operation (responses discarded). -/
def applyOp (s : ServerState) : ServerOp → ServerState
  | ServerOp.register now req a b c => (Register s now req a b c).2
  | ServerOp.deregister req d => (Deregister s req d).2
  | ServerOp.healthCheck now req a b c => (HealthCheck s now req a b c).2
  | ServerOp.cleanup now => cleanupExpiredInstances s now
  | ServerOp.refresh f => (refreshCache s ⟨0, 0⟩ f).1
  | ServerOp.load kvs => loadInitialData s kvs

/-- States reachable from a given state by server operations. -/
inductive Reachable (s0 : ServerState) : ServerState → Prop
  | refl : Reachable s0 s0
  | step {s : ServerState} (op : ServerOp) :
      Reachable s0 s → Reachable s0 (applyOp s op)

/-- Every service key present in a two-level map owns at least one
instance. -/
def noEmptyInner {α : Type} (m : List (String × List (String × α))) : Bool :=
  m.all (fun p => !p.2.isEmpty)

/-- Example registration of a stale in-memory instance. -/
def c1Reg : Registration := ⟨"svc", "i1", "10.0.0.1", 8080, []⟩

/-- In-memory state holding one instance last seen at time 0 with a TTL of
10: at time 100 the instance is long expired but still stored. -/
def c1State : ServerState :=
  { services := []
    inMemoryInstances := [("svc", [("i1", ⟨c1Reg, 0⟩)])]
    inMemory := true
    cacheTTL := 10
    authToken := "" }

/-- Fresh registration used to exercise the cleanup sweep. -/
def c1FreshReg : Registration := ⟨"svc", "i2", "10.0.0.2", 8080, []⟩

/-- In-memory state with one stale and one fresh instance at time 100. -/
def c1SweepState : ServerState :=
  { services := []
    inMemoryInstances := [("svc", [("i1", ⟨c1Reg, 0⟩), ("i2", ⟨c1FreshReg, 95⟩)])]
    inMemory := true
    cacheTTL := 10
    authToken := "" }

/-- Registration stored in etcd mode for the HealthCheck counterexample. -/
def c2Reg : Registration := ⟨"svc", "i1", "h", 9000, []⟩

/-- Store-backed state holding one known instance. -/
def c2State : ServerState :=
  { services := [("svc", [("i1", c2Reg)])]
    inMemoryInstances := []
    inMemory := false
    cacheTTL := 30
    authToken := "" }

/-- Record registered first under key (svc, i1). -/
def c5RegOld : Registration := ⟨"svc", "i1", "old-host", 1, []⟩

/-- Record re-registered later under the same (svc, i1) key. -/
def c5RegNew : Registration := ⟨"svc", "i1", "new-host", 2, []⟩

/-- In-memory state already holding c5RegOld under (svc, i1). -/
def c5State : ServerState :=
  { services := []
    inMemoryInstances := [("svc", [("i1", ⟨c5RegOld, 0⟩)])]
    inMemory := true
    cacheTTL := 30
    authToken := "" }

/-- Valid registration for witnesses, on a fresh (svc, i9) key. -/
def c5FreshReg : Registration := ⟨"svc", "i9", "host9", 9, []⟩

/-- Three distinct registrations for the round-robin witness. -/
def rrReg1 : Registration := ⟨"s", "a", "h1", 80, []⟩

/-- Second registration for the round-robin witness. -/
def rrReg2 : Registration := ⟨"s", "b", "h2", 80, []⟩

/-- Third registration for the round-robin witness. -/
def rrReg3 : Registration := ⟨"s", "c", "h3", 80, []⟩

/-- Pool with a single connection of refcount 2, for the pool witness. -/
def c9Pool : PoolState := ⟨[("a:1", ⟨0, 2⟩)], 1⟩

theorem lookupS_eq_none_iff {α : Type} {m : List (String × α)} {k : String} :
    lookupS m k = none ↔ ∀ p ∈ m, p.1 ≠ k := by
  induction m with
  | nil => simp [lookupS]
  | cons p rest ih =>
    by_cases h : p.1 = k
    · simp [lookupS, h]
    · simp [lookupS, h, ih]

theorem lookupS_insert {α : Type} (m : List (String × α)) (k : String)
    (v : α) : lookupS (insertS m k v) k = some v := by
  induction m with
  | nil => simp [lookupS, insertS]
  | cons p rest ih =>
    by_cases h : p.1 = k
    · simp [lookupS, insertS, h]
    · simp [lookupS, insertS, h, ih]

theorem lookupS_insert_ne {α : Type} (m : List (String × α)) {k k' : String}
    (v : α) (hne : k' ≠ k) : lookupS (insertS m k v) k' = lookupS m k' := by
  induction m with
  | nil => simp [lookupS, insertS, Ne.symm hne]
  | cons p rest ih =>
    by_cases h : p.1 = k
    · simp [lookupS, insertS, h, Ne.symm hne]
    · by_cases h' : p.1 = k'
      · simp [lookupS, insertS, h, h', hne]
      · simp [lookupS, insertS, h, h', ih]

theorem insertS_of_absent {α : Type} {m : List (String × α)} {k : String}
    (v : α) (h : lookupS m k = none) : insertS m k v = m ++ [(k, v)] := by
  induction m with
  | nil => rfl
  | cons p rest ih =>
    by_cases hp : p.1 = k
    · simp [lookupS, hp] at h
    · simp only [lookupS] at h
      rw [if_neg (by simpa using hp)] at h
      simp [insertS, hp, ih h]

theorem insertS_insertS {α : Type} (m : List (String × α)) (k : String)
    (v w : α) : insertS (insertS m k v) k w = insertS m k w := by
  induction m with
  | nil => simp [insertS]
  | cons p rest ih =>
    by_cases h : p.1 = k
    · simp [insertS, h]
    · simp [insertS, h, ih]

theorem insertS_self {α : Type} {m : List (String × α)} {k : String} {v : α}
    (h : lookupS m k = some v) : insertS m k v = m := by
  induction m with
  | nil => simp [lookupS] at h
  | cons p rest ih =>
    by_cases hp : p.1 = k
    · have hv : p.2 = v := by simpa [lookupS, hp] using h
      cases p
      simp_all [insertS]
    · simp only [lookupS] at h
      rw [if_neg (by simpa using hp)] at h
      simp [insertS, hp, ih h]

theorem eraseS_append_restore {α : Type} {m : List (String × α)} {k : String}
    (v : α) (h : lookupS m k = none) : eraseS (m ++ [(k, v)]) k = m := by
  rw [lookupS_eq_none_iff] at h
  unfold eraseS
  rw [List.filter_append]
  have h2 : List.filter (fun p => p.1 != k) [(k, v)] = [] := by simp
  rw [h2, List.append_nil]
  apply List.filter_eq_self.mpr
  intro p hp
  simpa using h p hp

theorem insertS_ne_nil {α : Type} (m : List (String × α)) (k : String)
    (v : α) : insertS m k v ≠ [] := by
  cases m with
  | nil => simp [insertS]
  | cons p rest =>
    by_cases h : p.1 = k <;> simp [insertS, h]

theorem mem_insertS {α : Type} {m : List (String × α)} {k : String} {v : α}
    {p : String × α} (hp : p ∈ insertS m k v) : p = (k, v) ∨ p ∈ m := by
  induction m with
  | nil => simpa [insertS] using hp
  | cons q rest ih =>
    by_cases h : q.1 = k
    · simp only [insertS] at hp
      rw [if_pos (show (q.1 == k) = true from by simpa using h)] at hp
      rcases List.mem_cons.mp hp with rfl | h2
      · exact Or.inl rfl
      · exact Or.inr (List.mem_cons_of_mem _ h2)
    · simp only [insertS] at hp
      rw [if_neg (show ¬ (q.1 == k) = true from by simpa using h)] at hp
      rcases List.mem_cons.mp hp with rfl | h2
      · exact Or.inr (List.mem_cons_self _ _)
      · rcases ih h2 with h3 | h3
        · exact Or.inl h3
        · exact Or.inr (List.mem_cons_of_mem _ h3)

theorem noEmptyInner_iff {α : Type} {m : List (String × List (String × α))} :
    noEmptyInner m = true ↔ ∀ p ∈ m, p.2 ≠ [] := by
  simp [noEmptyInner, List.all_eq_true, List.isEmpty_iff]

theorem noEmptyInner_insert {α : Type}
    {m : List (String × List (String × α))} {k : String}
    {v : List (String × α)} (hm : noEmptyInner m = true) (hv : v ≠ []) :
    noEmptyInner (insertS m k v) = true := by
  rw [noEmptyInner_iff] at hm ⊢
  intro p hp
  rcases mem_insertS hp with rfl | h
  · exact hv
  · exact hm p h

theorem noEmptyInner_erase {α : Type}
    {m : List (String × List (String × α))} {k : String}
    (hm : noEmptyInner m = true) : noEmptyInner (eraseS m k) = true := by
  simp only [noEmptyInner, List.all_eq_true] at hm ⊢
  intro p hp
  exact hm p (List.mem_of_mem_filter hp)

theorem lookupS_mem {α : Type} {m : List (String × α)} {k : String} {v : α}
    (h : lookupS m k = some v) : (k, v) ∈ m := by
  induction m with
  | nil => simp [lookupS] at h
  | cons p rest ih =>
    by_cases hp : p.1 = k
    · have hv : p.2 = v := by simpa [lookupS, hp] using h
      have : (k, v) = p := by
        cases p
        simp_all
      rw [this]
      exact List.mem_cons_self _ _
    · simp only [lookupS] at h
      rw [if_neg (by simpa using hp)] at h
      exact List.mem_cons_of_mem _ (ih h)

theorem lookup2_addInstance {α : Type}
    (m : List (String × List (String × α))) (sn id : String) (v : α) :
    lookup2 (addInstance m sn id v) sn id = some v := by
  simp [lookup2, addInstance, lookupS_insert]

/-- C3: with a non-empty authToken configured, a call carrying no incoming
metadata is rejected Unauthenticated; a call whose authorization credential
is not the configured token byte-for-byte is rejected PermissionDenied; a
call with a matching credential is passed through to the handler; with an
empty authToken every call passes through unchanged. -/
theorem authInterceptor_gate_spec {α : Type} (tok : String)
    (md : Option (List (String × List String))) (handler : Except GrpcCode α) :
    (tok ≠ "" → md = none →
      AuthInterceptor tok md handler = Except.error GrpcCode.unauthenticated)
    ∧ (tok ≠ "" → ∀ m, md = some m →
        (mdGet m "authorization").head? ≠ some tok →
        AuthInterceptor tok md handler = Except.error GrpcCode.permissionDenied)
    ∧ (tok ≠ "" → ∀ m, md = some m →
        (mdGet m "authorization").head? = some tok →
        AuthInterceptor tok md handler = handler)
    ∧ (tok = "" → AuthInterceptor tok md handler = handler) := by
  refine ⟨?_, ?_, ?_, ?_⟩
  · intro h hmd
    subst hmd
    simp [AuthInterceptor, h]
  · intro h m hmd hcred
    subst hmd
    rcases htok : mdGet m "authorization" with _ | ⟨t, rest⟩
    · simp [AuthInterceptor, h, htok]
    · have ht : t ≠ tok := by
        rw [htok] at hcred
        simpa using hcred
      simp [AuthInterceptor, h, htok, ht]
  · intro h m hmd hcred
    subst hmd
    rcases htok : mdGet m "authorization" with _ | ⟨t, rest⟩
    · rw [htok] at hcred
      simp at hcred
    · have ht : t = tok := by
        rw [htok] at hcred
        simpa using hcred
      simp [AuthInterceptor, h, htok, ht]
  · intro h
    simp [AuthInterceptor, h]

/-- Concrete run of the auth gate: the matching credential passes through. -/
theorem authInterceptor_gate_spec_witness :
    AuthInterceptor "T" (some [("authorization", ["T"])])
        (Except.ok (⟨true, ""⟩ : Response))
      = Except.ok (⟨true, ""⟩ : Response) :=
  (authInterceptor_gate_spec "T" (some [("authorization", ["T"])])
    (Except.ok (⟨true, ""⟩ : Response))).2.2.1 (by decide) _ rfl (by decide)

/-- C4: Register fails with InvalidArgument exactly when serviceName,
instanceId or address is empty or the port is zero; in in-memory mode a
valid request succeeds and stores the registration under
(serviceName, instanceId) with lastSeen = now. -/
theorem register_validation_spec (s : ServerState) (now : Nat)
    (req : Registration) (marshalOk grantOk putOk : Bool) :
    ((Register s now req marshalOk grantOk putOk).1
        = Except.error GrpcCode.invalidArgument
      ↔ (req.serviceName = "" ∨ req.instanceId = "" ∨ req.address = ""
          ∨ req.port = 0))
    ∧ (s.inMemory = true →
        ¬(req.serviceName = "" ∨ req.instanceId = "" ∨ req.address = ""
            ∨ req.port = 0) →
        (Register s now req marshalOk grantOk putOk).1 = Except.ok ⟨true, ""⟩
        ∧ lookup2 (Register s now req marshalOk grantOk putOk).2.inMemoryInstances
            req.serviceName req.instanceId = some ⟨req, now⟩) := by
  by_cases hv : (req.serviceName = "" ∨ req.instanceId = "" ∨ req.address = ""
      ∨ req.port = 0)
  · refine ⟨by simp [Register, hv], ?_⟩
    intro _ hnv
    exact absurd hv hnv
  · refine ⟨iff_of_false ?_ hv, ?_⟩
    · simp only [Register, if_neg hv]
      by_cases hm : s.inMemory
      · simp [hm]
      · cases marshalOk <;> cases grantOk <;> cases putOk <;> simp [hm]
    · intro hm _
      simp [Register, hv, hm, lookup2_addInstance]

/-- Concrete run of Register validation: a valid in-memory registration
succeeds and an invalid one is rejected. -/
theorem register_validation_spec_witness :
    (Register (initialServer 30 "" true) 7 c5FreshReg true true true).1
        = Except.ok ⟨true, ""⟩
    ∧ lookup2 (Register (initialServer 30 "" true) 7 c5FreshReg true true
        true).2.inMemoryInstances "svc" "i9" = some ⟨c5FreshReg, 7⟩ :=
  (register_validation_spec (initialServer 30 "" true) 7 c5FreshReg
    true true true).2 rfl (by decide)

/-- C2 (amended): in store-backed mode, on a known instance, a marshal or
lease-grant failure yields UNHEALTHY, but a failed store write (Put) is only
logged and the response is still HEALTHY; in every case the server state,
hence the instance entry, is left untouched. -/
theorem healthCheck_store_renewal_behavior (s : ServerState) (now : Nat)
    (req : HealthRequest) (marshalOk grantOk putOk : Bool)
    (inner : List (String × Registration)) (reg : Registration)
    (hmode : s.inMemory = false)
    (hsvc : lookupS s.services req.serviceName = some inner)
    (hinst : lookupS inner req.instanceId = some reg) :
    (HealthCheck s now req marshalOk grantOk putOk).2 = s
    ∧ (marshalOk = false ∨ grantOk = false →
        (HealthCheck s now req marshalOk grantOk putOk).1
          = HealthStatus.unhealthy)
    ∧ (marshalOk = true → grantOk = true →
        (HealthCheck s now req marshalOk grantOk putOk).1
          = HealthStatus.healthy) := by
  have hred : ∀ mo go po, HealthCheck s now req mo go po
      = (if mo = false then (HealthStatus.unhealthy, s)
         else if go = false then (HealthStatus.unhealthy, s)
         else (HealthStatus.healthy, s)) := by
    intro mo go po
    simp [HealthCheck, hmode, hsvc, hinst]
  refine ⟨?_, ?_, ?_⟩
  · rw [hred]
    cases marshalOk <;> cases grantOk <;> simp
  · intro h
    rw [hred]
    rcases h with h | h
    · subst h
      simp
    · subst h
      cases marshalOk <;> simp
  · intro h1 h2
    subst h1
    subst h2
    rw [hred]
    simp

/-- Concrete run: marshal ok, grant fails, on the known instance of
c2State; the status is UNHEALTHY and the state is unchanged. -/
theorem healthCheck_store_renewal_behavior_witness :
    (HealthCheck c2State 0 ⟨"svc", "i1"⟩ true false true).2 = c2State
    ∧ (HealthCheck c2State 0 ⟨"svc", "i1"⟩ true false true).1
        = HealthStatus.unhealthy := by
  have h := healthCheck_store_renewal_behavior c2State 0 ⟨"svc", "i1"⟩
    true false true [("i1", c2Reg)] c2Reg rfl (by decide) (by decide)
  exact ⟨h.1, h.2.1 (Or.inr rfl)⟩

/-- Counterexample to C2 as stated: on a known instance the store write
(Put) fails, yet HealthCheck answers HEALTHY, not UNHEALTHY. -/
theorem healthCheck_put_failure_still_healthy :
    (HealthCheck c2State 0 ⟨"svc", "i1"⟩ true true false).1
        = HealthStatus.healthy
    ∧ HealthStatus.healthy ≠ HealthStatus.unhealthy := by
  exact ⟨by decide, by decide⟩

theorem foldl_skip_none (kvs : List (Option Registration))
    (acc : List (String × List (String × Registration))) :
    kvs.foldl (fun acc kv =>
      match kv with
      | some reg => addRegToCache acc reg
      | none => acc) acc
      = (kvs.filterMap id).foldl addRegToCache acc := by
  induction kvs generalizing acc with
  | nil => rfl
  | cons kv rest ih =>
    cases kv with
    | none => simpa using ih acc
    | some reg => simpa using ih (addRegToCache acc reg)

/-- C8 (amended): during a store-backed cache refresh every record that
fails to deserialize is skipped — the refresh does not abort and the new
ServiceMap is exactly the one built from the parseable records — but no
error counter is incremented for it; only a failed fetch increments the
error counter. -/
theorem refreshCache_skips_unparseable (s : ServerState) (m : RefreshMetrics)
    (kvs : List (Option Registration)) :
    (refreshCache s m (FetchResult.ok kvs)).1.services
        = buildCacheRegs (kvs.filterMap id)
    ∧ (refreshCache s m (FetchResult.ok kvs)).2.refreshErrors
        = m.refreshErrors
    ∧ (refreshCache s m (FetchResult.ok kvs)).2.refreshes = m.refreshes + 1
    ∧ (refreshCache s m FetchResult.failed).2.refreshErrors
        = m.refreshErrors + 1
    ∧ (refreshCache s m FetchResult.failed).1 = s := by
  refine ⟨?_, rfl, rfl, rfl, rfl⟩
  simp [refreshCache, buildCache, buildCacheRegs, foldl_skip_none]

/-- Counterexample to C8 as stated: one unparseable record is fetched, yet
the error counter is not incremented. -/
theorem refreshCache_unparseable_not_counted :
    (refreshCache (initialServer 30 "" false) ⟨0, 0⟩
        (FetchResult.ok [none])).2.refreshErrors ≠ 0 + 1
    ∧ (refreshCache (initialServer 30 "" false) ⟨0, 0⟩
        (FetchResult.ok [none])).2.refreshErrors = 0 := by
  exact ⟨by decide, by decide⟩

/-- C9: for the sequentially operated connection pool, Get on a present
address returns that entry's connection with refcount +1; Get on an absent
address dials — a failing dial propagates the error and stores nothing, a
successful one stores a fresh entry with refcount 1; Release decrements the
refcount when the entry is present and does nothing otherwise;
ConnectionCount returns the current refcount, and 0 when absent. -/
theorem pool_refcount_spec (p : PoolState) (a : String) (dialOk : Bool) :
    (∀ pc, lookupS p.conns a = some pc →
      poolGet p a dialOk = Except.ok (pc.connId,
        ⟨insertS p.conns a ⟨pc.connId, pc.refCount + 1⟩, p.nextId⟩))
    ∧ (∀ pc, lookupS p.conns a = some pc →
        poolConnectionCount
          ⟨insertS p.conns a ⟨pc.connId, pc.refCount + 1⟩, p.nextId⟩ a
          = pc.refCount + 1)
    ∧ (lookupS p.conns a = none → dialOk = false →
        poolGet p a dialOk = Except.error ())
    ∧ (lookupS p.conns a = none → dialOk = true →
        poolGet p a dialOk = Except.ok (p.nextId,
          ⟨insertS p.conns a ⟨p.nextId, 1⟩, p.nextId + 1⟩))
    ∧ (lookupS p.conns a = none →
        poolConnectionCount ⟨insertS p.conns a ⟨p.nextId, 1⟩, p.nextId + 1⟩ a
          = 1)
    ∧ (∀ pc, lookupS p.conns a = some pc →
        poolRelease p a = ⟨insertS p.conns a ⟨pc.connId, pc.refCount - 1⟩, p.nextId⟩)
    ∧ (lookupS p.conns a = none → poolRelease p a = p)
    ∧ (∀ pc, lookupS p.conns a = some pc →
        poolConnectionCount p a = pc.refCount)
    ∧ (lookupS p.conns a = none → poolConnectionCount p a = 0) := by
  refine ⟨?_, ?_, ?_, ?_, ?_, ?_, ?_, ?_, ?_⟩
  · intro pc h
    simp [poolGet, h]
  · intro pc h
    simp [poolConnectionCount, lookupS_insert]
  · intro h hd
    subst hd
    simp [poolGet, h]
  · intro h hd
    subst hd
    simp [poolGet, h]
  · intro h
    simp [poolConnectionCount, lookupS_insert]
  · intro pc h
    simp [poolRelease, h]
  · intro h
    simp [poolRelease, h]
  · intro pc h
    simp [poolConnectionCount, h]
  · intro h
    simp [poolConnectionCount, h]

/-- Concrete pool runs: a hit bumps the refcount of the stored entry and a
failed dial on a missing address propagates the error. -/
theorem pool_refcount_spec_witness :
    poolGet c9Pool "a:1" true
        = Except.ok (0, ({ conns := [("a:1", ⟨0, 3⟩)], nextId := 1 } : PoolState))
    ∧ poolGet c9Pool "b:2" false = Except.error () := by
  constructor
  · have h := (pool_refcount_spec c9Pool "a:1" true).1 ⟨0, 2⟩ (by decide)
    simpa [c9Pool, insertS] using h
  · exact (pool_refcount_spec c9Pool "b:2" false).2.2.1 (by decide) rfl

/-- Counterexample to C1 as stated: the in-memory Discover of c1State
returns the stored instance although its lastSeen age (100 − 0) exceeds
cacheTTL = 10 at the time of the call. -/
theorem discover_returns_stale_instance :
    c1State.inMemory = true
    ∧ lookup2 c1State.inMemoryInstances "svc" "i1" = some ⟨c1Reg, 0⟩
    ∧ 100 - (0 : Nat) > c1State.cacheTTL
    ∧ c1Reg ∈ Discover c1State ⟨"svc", true⟩ := by
  refine ⟨rfl, by decide, by decide, by decide⟩

theorem cleanup_inner_fresh (s : ServerState) (now : Nat) {sn : String}
    {inner : List (String × InstanceInfo)}
    (h : lookupS (cleanupExpiredInstances s now).inMemoryInstances sn
      = some inner) :
    ∀ p ∈ inner, now - p.2.lastSeen ≤ s.cacheTTL := by
  intro p hp
  have hmem := lookupS_mem h
  simp only [cleanupExpiredInstances] at hmem
  rcases List.mem_filterMap.mp hmem with ⟨a, ha, hfa⟩
  split at hfa
  · cases hfa
  · have := Option.some.inj hfa
    have hinner : inner
        = a.2.filter (fun q => decide (now - q.2.lastSeen ≤ s.cacheTTL)) := by
      have := congrArg Prod.snd this
      simpa using this.symm
    rw [hinner] at hp
    simpa using List.of_mem_filter hp

/-- C1 (amended): in-memory Discover returns every stored instance
regardless of its age; staleness is bounded only by the janitor: right
after a cleanupExpiredInstances sweep at time now, every registration that
Discover returns belongs to a stored instance whose age at sweep time is at
most cacheTTL. -/
theorem cleanup_discover_only_fresh (s : ServerState) (now : Nat)
    (q : ServiceQuery) (r : Registration) (hmem : s.inMemory = true)
    (hr : r ∈ Discover (cleanupExpiredInstances s now) q) :
    ∃ inner id info,
      lookupS (cleanupExpiredInstances s now).inMemoryInstances q.serviceName
        = some inner
      ∧ (id, info) ∈ inner ∧ info.registration = r
      ∧ now - info.lastSeen ≤ s.cacheTTL := by
  have hmem' : (cleanupExpiredInstances s now).inMemory = true := hmem
  rw [Discover, if_pos hmem'] at hr
  rcases hl : lookupS (cleanupExpiredInstances s now).inMemoryInstances
      q.serviceName with _ | inner
  · rw [hl] at hr
    cases hr
  · rw [hl] at hr
    rcases List.mem_map.mp hr with ⟨p, hp, hpr⟩
    exact ⟨inner, p.1, p.2, rfl, hp, hpr, cleanup_inner_fresh s now hl p hp⟩

/-- Concrete sweep of c1SweepState at time 100: the fresh instance is still
returned and the theorem certifies its age bound. -/
theorem cleanup_discover_only_fresh_witness :
    ∃ inner id info,
      lookupS (cleanupExpiredInstances c1SweepState 100).inMemoryInstances
        "svc" = some inner
      ∧ (id, info) ∈ inner ∧ info.registration = c1FreshReg
      ∧ 100 - info.lastSeen ≤ c1SweepState.cacheTTL :=
  cleanup_discover_only_fresh c1SweepState 100 ⟨"svc", true⟩ c1FreshReg rfl
    (by decide)

theorem map_registration_insertS (inner : List (String × InstanceInfo))
    (id : String) (x : Registration) (t1 t2 : Nat) :
    (insertS inner id ⟨x, t1⟩).map (fun p => p.2.registration)
      = (insertS inner id ⟨x, t2⟩).map (fun p => p.2.registration) := by
  induction inner with
  | nil => rfl
  | cons p rest ih =>
    by_cases h : p.1 = id <;> simp [insertS, h, ih]

theorem register_twice_state (s : ServerState) (t1 t2 : Nat)
    (x : Registration) :
    (Register (Register s t1 x true true true).2 t2 x true true true).2
      = (Register s t2 x true true true).2 := by
  by_cases hv : (x.serviceName = "" ∨ x.instanceId = "" ∨ x.address = ""
      ∨ x.port = 0)
  · simp [Register, hv]
  · by_cases hm : s.inMemory = true
    · simp [Register, hv, hm, addInstance, lookupS_insert, insertS_insertS]
    · simp [Register, hv, hm, addInstance, lookupS_insert, insertS_insertS]

theorem discover_register_time (s : ServerState) (t1 t2 : Nat)
    (x : Registration) (q : ServiceQuery) :
    Discover (Register s t1 x true true true).2 q
      = Discover (Register s t2 x true true true).2 q := by
  by_cases hv : (x.serviceName = "" ∨ x.instanceId = "" ∨ x.address = ""
      ∨ x.port = 0)
  · simp [Register, hv]
  · by_cases hm : s.inMemory = true
    · simp only [Register, if_neg hv, hm, if_true, if_pos]
      simp only [Discover, addInstance, hm, if_true, if_pos]
      by_cases hq : q.serviceName = x.serviceName
      · rw [hq]
        rw [lookupS_insert, lookupS_insert]
        exact map_registration_insertS _ _ _ t1 t2
      · rw [lookupS_insert_ne _ _ hq, lookupS_insert_ne _ _ hq]
    · simp [Register, hv, hm]

/-- C6: Register(x) followed by Register(x) is equivalent to a single
Register(x): the second call replaces the stored record under the same
(serviceName, instanceId) key, so Discover output after the pair equals
Discover output after one call, for every query. -/
theorem register_register_discover_idempotent (s : ServerState)
    (t1 t2 : Nat) (x : Registration) (q : ServiceQuery) :
    Discover (Register (Register s t1 x true true true).2 t2 x true true
        true).2 q
      = Discover (Register s t1 x true true true).2 q := by
  rw [register_twice_state]
  exact discover_register_time s t2 t1 x q

theorem removeInstance_addInstance {α : Type}
    (m : List (String × List (String × α))) (sn id : String) (v : α)
    (hne : noEmptyInner m = true)
    (habs : lookupS ((lookupS m sn).getD []) id = none) :
    removeInstance (addInstance m sn id v) sn id = m := by
  rcases houter : lookupS m sn with _ | inner0
  · simp only [addInstance, houter, Option.getD_none]
    rw [show insertS ([] : List (String × α)) id v = [(id, v)] from rfl]
    have hl := lookupS_insert m sn [(id, v)]
    simp only [removeInstance, hl]
    have he : eraseS [(id, v)] id = [] := by simp [eraseS]
    rw [he]
    simp only [List.isEmpty_nil, if_pos]
    rw [insertS_of_absent _ houter]
    exact eraseS_append_restore _ houter
  · have hinner0 : lookupS inner0 id = none := by
      simpa [houter] using habs
    have h0ne : inner0 ≠ [] :=
      (noEmptyInner_iff.mp hne) _ (lookupS_mem houter)
    simp only [addInstance, houter, Option.getD_some]
    rw [insertS_of_absent _ hinner0]
    have hl := lookupS_insert m sn (inner0 ++ [(id, v)])
    simp only [removeInstance, hl]
    rw [eraseS_append_restore _ hinner0]
    rw [if_neg (by simpa [List.isEmpty_iff] using h0ne)]
    rw [insertS_insertS]
    exact insertS_self houter

/-- C5 (amended): in in-memory mode, for a well-formed state (no service
key with an empty instance map) and a valid registration x whose
(serviceName, instanceId) key is not yet stored, Register(x) then
Deregister(x.serviceName, x.instanceId) restores the server state exactly,
hence Discover output; the Deregister of the pair reports success, and a
Deregister of the still-absent key on the original state also reports
success (idempotence).  When the key was already stored, the pair is NOT a
no-op on Discover output: it erases the pre-existing record (see the
counterexample). -/
theorem register_deregister_restores (s : ServerState) (now : Nat)
    (x : Registration) (hmem : s.inMemory = true)
    (hne : noEmptyInner s.inMemoryInstances = true)
    (hvalid : ¬(x.serviceName = "" ∨ x.instanceId = "" ∨ x.address = ""
        ∨ x.port = 0))
    (habs : lookupS ((lookupS s.inMemoryInstances x.serviceName).getD [])
        x.instanceId = none) :
    (Deregister (Register s now x true true true).2
        ⟨x.serviceName, x.instanceId⟩ true).2 = s
    ∧ lookup2 (Deregister (Register s now x true true true).2
        ⟨x.serviceName, x.instanceId⟩ true).2.inMemoryInstances
        x.serviceName x.instanceId = none
    ∧ (Deregister (Register s now x true true true).2
        ⟨x.serviceName, x.instanceId⟩ true).1 = Except.ok ⟨true, ""⟩
    ∧ (Deregister s ⟨x.serviceName, x.instanceId⟩ true).1
        = Except.ok ⟨true, ""⟩ := by
  have hreg : (Register s now x true true true).2
      = { s with inMemoryInstances := addInstance s.inMemoryInstances x.serviceName x.instanceId ⟨x, now⟩ } := by
    simp [Register, hvalid, hmem]
  have hstate : (Deregister (Register s now x true true true).2
      ⟨x.serviceName, x.instanceId⟩ true).2 = s := by
    rw [hreg]
    simp only [Deregister, hmem, if_pos, if_true]
    rw [removeInstance_addInstance s.inMemoryInstances x.serviceName
      x.instanceId ⟨x, now⟩ hne habs]
    rw [← hmem]
  refine ⟨hstate, ?_, ?_, ?_⟩
  · rw [hstate]
    rcases houter : lookupS s.inMemoryInstances x.serviceName with _ | inner
    · simp [lookup2, houter]
    · rw [houter, Option.getD_some] at habs
      simp [lookup2, houter, habs]
  · rw [hreg]
    simp [Deregister, hmem]
  · simp [Deregister, hmem]

/-- Concrete run: registering the fresh key (svc, i9) on c5State and
deregistering it restores the state, and both Deregisters succeed. -/
theorem register_deregister_restores_witness :
    (Deregister (Register c5State 5 c5FreshReg true true true).2
        ⟨"svc", "i9"⟩ true).2 = c5State
    ∧ lookup2 (Deregister (Register c5State 5 c5FreshReg true true true).2
        ⟨"svc", "i9"⟩ true).2.inMemoryInstances "svc" "i9" = none
    ∧ (Deregister (Register c5State 5 c5FreshReg true true true).2
        ⟨"svc", "i9"⟩ true).1 = Except.ok ⟨true, ""⟩
    ∧ (Deregister c5State ⟨"svc", "i9"⟩ true).1 = Except.ok ⟨true, ""⟩ :=
  register_deregister_restores c5State 5 c5FreshReg rfl (by decide)
    (by decide) (by decide)

/-- Counterexample to C5 as stated: on a state already holding a record
under (svc, i1), Register of a new record with the same key followed by
Deregister empties the service, so Discover output is NOT what it was
before the pair. -/
theorem register_deregister_not_noop :
    Discover (Deregister (Register c5State 5 c5RegNew true true true).2
        ⟨"svc", "i1"⟩ true).2 ⟨"svc", false⟩
      ≠ Discover c5State ⟨"svc", false⟩
    ∧ Discover c5State ⟨"svc", false⟩ = [c5RegOld]
    ∧ Discover (Deregister (Register c5State 5 c5RegNew true true true).2
        ⟨"svc", "i1"⟩ true).2 ⟨"svc", false⟩ = [] := by
  refine ⟨by decide, by decide, by decide⟩

theorem rrIter_formula (svc : String) (inst : List Registration)
    (hne : inst.length ≠ 0) :
    ∀ (k : Nat) (b : List (String × Nat)),
      rrIter b svc inst k
        = inst[((lookupS b svc).getD 0 + k) % inst.length]? := by
  intro k
  induction k with
  | zero =>
    intro b
    simp [rrIter, rrSelect, hne]
  | succ n ih =>
    intro b
    have hsel : (rrSelect b svc inst).2
        = insertS b svc (((lookupS b svc).getD 0 + 1) % inst.length) := by
      simp [rrSelect, hne]
    rw [rrIter, hsel, ih, lookupS_insert]
    simp only [Option.getD_some]
    rw [Nat.mod_add_mod]
    congr 2
    omega

theorem rr_window (b : List (String × Nat)) (svc : String)
    (inst : List Registration) (hne : inst ≠ []) :
    (List.range inst.length).map (rrIter b svc inst)
      = (inst.rotate ((lookupS b svc).getD 0)).map some := by
  have hlen : inst.length ≠ 0 := by simpa [List.length_eq_zero] using hne
  apply List.ext_getElem?
  intro n
  by_cases hn : n < inst.length
  · rw [List.getElem?_map, List.getElem?_map, List.getElem?_range hn,
      List.getElem?_rotate hn]
    simp only [Option.map_some']
    rw [rrIter_formula svc inst hlen n b,
      Nat.add_comm ((lookupS b svc).getD 0) n]
    have hlt2 : (n + (lookupS b svc).getD 0) % inst.length < inst.length :=
      Nat.mod_lt _ (Nat.pos_of_ne_zero hlen)
    rw [List.getElem?_eq_getElem hlt2]
    simp
  · have h1 : ((List.range inst.length).map (rrIter b svc inst)).length
        = inst.length := by simp
    have h2 : ((inst.rotate ((lookupS b svc).getD 0)).map some).length
        = inst.length := by simp
    rw [List.getElem?_eq_none (by omega), List.getElem?_eq_none (by omega)]

/-- C7: the round-robin balancer returns none on an empty list; over a
stable non-empty list of length N the k-th selection is the instance at
position (cursor + k) mod N, so one window of N consecutive selections is
exactly the list rotated to the cursor (each instance once, in list order),
and the selection is cyclic with period N. -/
theorem roundRobin_cyclic_selection (b : List (String × Nat)) (svc : String)
    (inst : List Registration) :
    (inst = [] → (rrSelect b svc inst).1 = none)
    ∧ (inst ≠ [] → ∀ k, rrIter b svc inst k
        = inst[((lookupS b svc).getD 0 + k) % inst.length]?)
    ∧ (inst ≠ [] → (List.range inst.length).map (rrIter b svc inst)
        = (inst.rotate ((lookupS b svc).getD 0)).map some)
    ∧ (inst ≠ [] → ∀ k, rrIter b svc inst (k + inst.length)
        = rrIter b svc inst k) := by
  refine ⟨?_, ?_, ?_, ?_⟩
  · intro h
    subst h
    rfl
  · intro h k
    exact rrIter_formula svc inst (by simpa [List.length_eq_zero] using h) k b
  · intro h
    exact rr_window b svc inst h
  · intro h k
    have hlen : inst.length ≠ 0 := by simpa [List.length_eq_zero] using h
    rw [rrIter_formula svc inst hlen, rrIter_formula svc inst hlen]
    congr 1
    rw [← Nat.add_assoc, Nat.add_mod_right]

/-- Concrete round-robin run over three instances from a fresh cursor: the
first window is the list itself in order. -/
theorem roundRobin_cyclic_selection_witness :
    (List.range 3).map (rrIter [] "s" [rrReg1, rrReg2, rrReg3])
      = [some rrReg1, some rrReg2, some rrReg3] := by
  have h := (roundRobin_cyclic_selection [] "s" [rrReg1, rrReg2, rrReg3]).2.2.1
    (by decide)
  simpa [List.rotate] using h

theorem noEmptyInner_addInstance {α : Type}
    {m : List (String × List (String × α))} (sn id : String) (v : α)
    (hm : noEmptyInner m = true) :
    noEmptyInner (addInstance m sn id v) = true :=
  noEmptyInner_insert hm (insertS_ne_nil _ _ _)

theorem noEmptyInner_removeInstance {α : Type}
    {m : List (String × List (String × α))} (sn id : String)
    (hm : noEmptyInner m = true) :
    noEmptyInner (removeInstance m sn id) = true := by
  unfold removeInstance
  rcases h : lookupS m sn with _ | inner
  · simpa using hm
  · simp only
    by_cases he : (eraseS inner id).isEmpty
    · simp only [if_pos he]
      exact noEmptyInner_erase hm
    · simp only [if_neg he]
      exact noEmptyInner_insert hm (by simpa [List.isEmpty_iff] using he)

theorem noEmptyInner_cleanup (s : ServerState) (now : Nat) :
    noEmptyInner (cleanupExpiredInstances s now).inMemoryInstances = true := by
  rw [noEmptyInner_iff]
  intro p hp
  simp only [cleanupExpiredInstances] at hp
  rcases List.mem_filterMap.mp hp with ⟨a, ha, hfa⟩
  split at hfa
  · cases hfa
  · rename_i hemp
    have hpe := Option.some.inj hfa
    rw [← hpe]
    simpa [List.isEmpty_iff] using hemp

theorem noEmptyInner_foldRecords (kvs : List (Option Registration))
    (acc : List (String × List (String × Registration)))
    (hacc : noEmptyInner acc = true) :
    noEmptyInner (kvs.foldl (fun acc kv =>
      match kv with
      | some reg => addRegToCache acc reg
      | none => acc) acc) = true := by
  induction kvs generalizing acc with
  | nil => simpa using hacc
  | cons kv rest ih =>
    cases kv with
    | none => simpa using ih acc hacc
    | some reg =>
      have h2 : noEmptyInner (addRegToCache acc reg) = true :=
        noEmptyInner_addInstance _ _ _ hacc
      simpa using ih (addRegToCache acc reg) h2

theorem applyOp_preserves_noEmpty (s : ServerState) (op : ServerOp)
    (h1 : noEmptyInner s.services = true)
    (h2 : noEmptyInner s.inMemoryInstances = true) :
    noEmptyInner (applyOp s op).services = true
    ∧ noEmptyInner (applyOp s op).inMemoryInstances = true := by
  cases op with
  | register now req a b c =>
    simp only [applyOp, Register]
    by_cases hv : (req.serviceName = "" ∨ req.instanceId = ""
        ∨ req.address = "" ∨ req.port = 0)
    · simp [hv, h1, h2]
    · rw [if_neg hv]
      by_cases hm : s.inMemory = true
      · simp [hm, h1, h2, noEmptyInner_addInstance _ _ _ h2]
      · cases a <;> cases b <;> cases c <;>
          simp [hm, h1, h2, noEmptyInner_addInstance _ _ _ h1]
  | deregister req d =>
    by_cases hm : s.inMemory = true
    · simp [applyOp, Deregister, hm, h1, h2,
        noEmptyInner_removeInstance _ _ h2]
    · cases d <;>
        simp [applyOp, Deregister, hm, h1, h2,
          noEmptyInner_removeInstance _ _ h1]
  | healthCheck now req a b c =>
    simp only [applyOp, HealthCheck]
    by_cases hm : s.inMemory = true
    · rcases hl : lookupS s.inMemoryInstances req.serviceName with _ | inner
      · simp [hm, hl, h1, h2]
      · rcases hi : lookupS inner req.instanceId with _ | info
        · simp [hm, hl, hi, h1, h2]
        · have h3 : noEmptyInner (insertS s.inMemoryInstances req.serviceName
              (insertS inner req.instanceId
                { info with lastSeen := now })) = true :=
            noEmptyInner_insert h2 (insertS_ne_nil _ _ _)
          simp [hm, hl, hi, h1, h3]
    · rcases hl : lookupS s.services req.serviceName with _ | inner
      · simp [hm, hl, h1, h2]
      · rcases hi : lookupS inner req.instanceId with _ | reg
        · simp [hm, hl, hi, h1, h2]
        · cases a <;> cases b <;> simp [hm, hl, hi, h1, h2]
  | cleanup now =>
    exact ⟨h1, noEmptyInner_cleanup s now⟩
  | refresh f =>
    cases f with
    | ok kvs =>
      refine ⟨?_, h2⟩
      simp only [applyOp, refreshCache, buildCache]
      exact noEmptyInner_foldRecords kvs [] rfl
    | canceled => exact ⟨h1, h2⟩
    | failed => exact ⟨h1, h2⟩
  | load kvs =>
    simp only [applyOp, loadInitialData]
    by_cases hm : s.inMemory = true
    · simp [hm, h1, h2]
    · simp only [if_neg hm]
      exact ⟨noEmptyInner_foldRecords kvs s.services h1, h2⟩

/-- C10: in every server state reachable from a freshly constructed server
by Register, Deregister, HealthCheck, the janitor sweep, a cache refresh
and the initial load, every per-service inner map of both the in-memory
view and the store-backed view is non-empty: a service key is present only
while it holds at least one instance (Deregister and the janitor delete the
key with the last instance). -/
theorem reachable_no_empty_service (cacheTTL : Nat) (authToken : String)
    (inMemory : Bool) (s : ServerState)
    (h : Reachable (initialServer cacheTTL authToken inMemory) s) :
    noEmptyInner s.services = true
    ∧ noEmptyInner s.inMemoryInstances = true := by
  induction h with
  | refl => exact ⟨rfl, rfl⟩
  | step op hr ih => exact applyOp_preserves_noEmpty _ op ih.1 ih.2

/-- Concrete reachable state: register one instance, then run the janitor
at a time when it expires; both views satisfy the invariant. -/
theorem reachable_no_empty_service_witness :
    noEmptyInner (applyOp (applyOp (initialServer 10 "" true)
        (ServerOp.register 0 c1Reg true true true))
        (ServerOp.cleanup 100)).services = true
    ∧ noEmptyInner (applyOp (applyOp (initialServer 10 "" true)
        (ServerOp.register 0 c1Reg true true true))
        (ServerOp.cleanup 100)).inMemoryInstances = true :=
  reachable_no_empty_service 10 "" true _
    (Reachable.step (ServerOp.cleanup 100)
      (Reachable.step (ServerOp.register 0 c1Reg true true true)
        Reachable.refl))

end Voyager
